import Mathlib

/-!
Shallow embedding of the Google Sheets helper layer of
`gsheets/sheets_tools.py` (miroblog/google-workspace-mcp), covering the
pure helpers (`_validate_2d_array`, `_parse_boolean`, the A1/GridRange
conversions, the column-letter codecs) and the remote-interaction shape
of `format_cells` and `get_data_boundaries` (the remote responses are
passed in as data; the issued mutating requests are returned as data).
-/

/-- Model of a Python runtime value as it flows through these helpers:
`None`, booleans, integers, strings and (nested) lists. -/
inductive PyVal where
  | none : PyVal
  | bool (b : Bool) : PyVal
  | int (n : Int) : PyVal
  | str (s : String) : PyVal
  | list (xs : List PyVal) : PyVal

/-- Python `isinstance(v, list)`. -/
def PyVal.isPyList : PyVal → Bool
  | .list _ => true
  | _ => false

/-- Python truthiness `bool(v)` for the value kinds we model. -/
def PyVal.truthy : PyVal → Bool
  | .none => false
  | .bool b => b
  | .int n => decide (n ≠ 0)
  | .str s => decide (s ≠ "")
  | .list xs => !xs.isEmpty

/-- Embedding of `_validate_2d_array` (sheets_tools.py lines 183-216):
`None` and `[]` raise `ValueError`; a non-list scalar becomes `[[v]]`; a
list whose first element is not a list becomes the single row `[values]`;
a list whose first element is a list must consist only of lists and is
returned unchanged, otherwise `ValueError`. -/
def _validate_2d_array (values : PyVal) : Except String PyVal :=
  match values with
  | .none => .error "Values cannot be None"
  | .list xs =>
    match xs with
    | [] => .error "Values cannot be an empty list"
    | x0 :: _ =>
      if x0.isPyList then
        if xs.all PyVal.isPyList then .ok (.list xs)
        else .error "Row is not a list"
      else .ok (.list [.list xs])
  | v => .ok (.list [.list [v]])

/-- Decimal value of a list of digit characters, as Python `int` reads a
digit string (used below to model `int(...)` on matched digit groups). -/
def digitsVal (ds : List Char) : Nat :=
  ds.foldl (fun a c => a * 10 + (c.toNat - 48)) 0

/-- Model of `[0-9]` / `str.isdigit` on ASCII digits. -/
def isDig (c : Char) : Bool := 48 ≤ c.toNat && c.toNat ≤ 57

/-- Model of Python `str.lower()` (ASCII case mapping, which covers every
string these tools compare against). -/
def pyLower (s : String) : String :=
  String.mk (s.toList.map Char.toLower)

/-- Model of Python `str.strip()`: drop leading and trailing whitespace. -/
def pyStrip (s : String) : String :=
  String.mk (((s.toList.dropWhile Char.isWhitespace).reverse.dropWhile Char.isWhitespace).reverse)

/-- Model of Python `int(value)` on a string: strip whitespace, optional
sign, then a non-empty run of decimal digits; anything else raises
(`Option.none` here). -/
def pyIntOfString (s : String) : Option Int :=
  match (pyStrip s).toList with
  | '-' :: ds => if ds ≠ [] ∧ ds.all isDig then some (-(digitsVal ds : Int)) else Option.none
  | '+' :: ds => if ds ≠ [] ∧ ds.all isDig then some (digitsVal ds : Int) else Option.none
  | ds => if ds ≠ [] ∧ ds.all isDig then some (digitsVal ds : Int) else Option.none

/-- Embedding of `_parse_boolean` (sheets_tools.py lines 298-343):
`None ↦ None`; a bool is returned as is; an int maps to `n ≠ 0`; a string
is lowercased and stripped and compared against the truthy set
`true/1/yes/on` and the falsy set `false/0/no/off`, then tried as an
integer, and finally falls through to Python truthiness (non-empty). -/
def _parse_boolean (value : PyVal) : Option Bool :=
  match value with
  | .none => Option.none
  | .bool b => some b
  | .int n => some (decide (n ≠ 0))
  | .str s =>
    let l := pyStrip (pyLower s)
    if l = "true" ∨ l = "1" ∨ l = "yes" ∨ l = "on" then some true
    else if l = "false" ∨ l = "0" ∨ l = "no" ∨ l = "off" then some false
    else
      match pyIntOfString s with
      | some n => some (decide (n ≠ 0))
      | Option.none => some (PyVal.truthy (.str s))
  | v => some v.truthy

/-- Model of the character class `[A-Z]` used by the A1 regexes. -/
def isUp (c : Char) : Bool := 65 ≤ c.toNat && c.toNat ≤ 90

/-- Embedding of `_column_letter_to_index` (sheets_tools.py lines
2654-2659) on the character list of the input string: the fold
`index = index * 26 + (ord(char) - ord("A") + 1)`, minus one at the end. -/
def colLetterToIndexL (letter : List Char) : Int :=
  (letter.foldl (fun index c => index * 26 + ((c.toNat : Int) - 65 + 1)) 0) - 1

/-- Embedding of `_column_letter_to_index` on a string. -/
def _column_letter_to_index (letter : String) : Int :=
  colLetterToIndexL letter.toList

/-- The loop of `_column_index_to_letter` (sheets_tools.py lines
2662-2670), after the initial `index += 1`: while the counter is
positive, decrement it, prepend `chr(counter % 26 + ord("A"))` and divide
the counter by 26.  The first character produced ends up last.  The first
argument is structural fuel (the counter strictly decreases, so a fuel
equal to the counter suffices; see `colLetterLoop_fuel`). -/
def colLetterLoop : Nat → Nat → List Char
  | _, 0 => []
  | 0, _ + 1 => []
  | fuel + 1, k + 1 => colLetterLoop fuel (k / 26) ++ [Char.ofNat (k % 26 + 65)]

/-- The loop of `_column_index_to_letter` run to completion. -/
def colLetterAux (n : Nat) : List Char :=
  colLetterLoop n n

/-- Embedding of `_column_index_to_letter` on character lists: Python
starts from an `int` that may be negative (then the loop body never runs
and the empty string is returned). -/
def colIndexToLetterL (index : Int) : List Char :=
  colLetterAux (index + 1).toNat

/-- Embedding of `_column_index_to_letter` on strings. -/
def _column_index_to_letter (index : Int) : String :=
  String.mk (colIndexToLetterL index)

/-- Digit list of a positive natural number, most significant first
(the loop of CPython's decimal rendering of a non-negative int), with
structural fuel like `colLetterLoop`. -/
def natDigitsLoop : Nat → Nat → List Char
  | _, 0 => []
  | 0, _ + 1 => []
  | fuel + 1, k + 1 => natDigitsLoop fuel ((k + 1) / 10) ++ [Char.ofNat ((k + 1) % 10 + 48)]

/-- Decimal digit list of a positive natural number. -/
def natDigitsAux (n : Nat) : List Char :=
  natDigitsLoop n n

/-- Decimal rendering of a natural number as Python `str` does. -/
def natDigits (n : Nat) : List Char :=
  if n = 0 then ['0'] else natDigitsAux n

/-- Decimal rendering of a Python `int` (a leading minus sign when
negative), as interpolated into the f-strings of the helpers. -/
def intDigits (i : Int) : List Char :=
  if i < 0 then '-' :: natDigits (-i).toNat else natDigits i.toNat

/-- The optional `(?::([A-Z]+)(\d+))?` tail of the A1 regex, tried at the
position right after the start cell's digits: it matches (groups 3 and 4)
only when a colon is followed immediately by letters and digits;
otherwise the optional group matches empty.  Maximal munch is exact here
because the character classes of adjacent tokens are disjoint. -/
def parseA1Tail : List Char → Option (List Char × List Char)
  | ':' :: r3 =>
    let g3 := r3.takeWhile isUp
    let r4 := r3.dropWhile isUp
    if g3.isEmpty then Option.none
    else
      let g4 := r4.takeWhile isDig
      if g4.isEmpty then Option.none else some (g3, g4)
  | _ => Option.none

/-- Model of `re.match(r"([A-Z]+)(\d+)(?::([A-Z]+)(\d+))?", a1)`:
anchored at the start only, it returns the matched groups (1, 2 and
optionally 3, 4) of the longest prefix match, or `Option.none` when the
input does not begin with letters followed by digits. -/
def parseA1Groups (s : List Char) : Option ((List Char × List Char) × Option (List Char × List Char)) :=
  let g1 := s.takeWhile isUp
  let r1 := s.dropWhile isUp
  if g1.isEmpty then Option.none
  else
    let g2 := r1.takeWhile isDig
    let r2 := r1.dropWhile isDig
    if g2.isEmpty then Option.none
    else some ((g1, g2), parseA1Tail r2)

/-- The GridRange dict built by `_convert_a1_to_grid_range`: `sheetId` is
always present; the four rectangle fields are present only when the regex
matched (`Option.none` models an absent key). -/
structure GridRange where
  sheetId : Int
  startRowIndex : Option Int
  endRowIndex : Option Int
  startColumnIndex : Option Int
  endColumnIndex : Option Int
deriving DecidableEq, Repr

/-- Embedding of `_convert_a1_to_grid_range` (sheets_tools.py lines
2615-2638): on a regex match the start cell gives the 0-based start
indices; with an end cell the end row is the 1-based row number (already
exclusive) and the end column is the 0-based index plus one; a single
cell gives a 1×1 rectangle; with no match only `sheetId` is present. -/
def _convert_a1_to_grid_range (a1 : String) (sheet_id : Int) : GridRange :=
  match parseA1Groups a1.toList with
  | Option.none =>
    { sheetId := sheet_id, startRowIndex := Option.none, endRowIndex := Option.none,
      startColumnIndex := Option.none, endColumnIndex := Option.none }
  | some ((g1, g2), tail) =>
    let start_col := colLetterToIndexL g1
    let start_row : Int := (digitsVal g2 : Int) - 1
    match tail with
    | some (g3, g4) =>
      { sheetId := sheet_id, startRowIndex := some start_row,
        endRowIndex := some (digitsVal g4 : Int),
        startColumnIndex := some start_col,
        endColumnIndex := some (colLetterToIndexL g3 + 1) }
    | Option.none =>
      { sheetId := sheet_id, startRowIndex := some start_row,
        endRowIndex := some (start_row + 1),
        startColumnIndex := some start_col,
        endColumnIndex := some (start_col + 1) }

/-- Embedding of `_grid_range_to_a1` (sheets_tools.py lines 2641-2651):
start fields default to 0 when absent; when both end fields are present
the rendered range is `Sheet!<startCol><startRow+1>:<endCol-1><endRow>`,
the end column letter computed after subtracting 1 from the exclusive
bound; otherwise only the start cell is rendered. -/
def _grid_range_to_a1 (grid_range : GridRange) (sheet_name : String) : String :=
  let start_col := colIndexToLetterL (grid_range.startColumnIndex.getD 0)
  let start_row : Int := grid_range.startRowIndex.getD 0 + 1
  match grid_range.endColumnIndex, grid_range.endRowIndex with
  | some ec, some er =>
    sheet_name ++ "!" ++ String.mk start_col ++ String.mk (intDigits start_row)
      ++ ":" ++ String.mk (colIndexToLetterL (ec - 1)) ++ String.mk (intDigits er)
  | _, _ => sheet_name ++ "!" ++ String.mk start_col ++ String.mk (intDigits start_row)

/-- Stripping the sheet-name part of an A1 string: everything up to and
including the first `!` (as `split("!", 1)[1]` does on a string that
contains a `!`). -/
def stripSheet (s : String) : String :=
  String.mk ((s.toList.dropWhile (fun c => c != '!')).drop 1)

/-- The grammar `<letters><digits>(:<letters><digits>)?` of cell-range
strings: a non-empty run of `A`-`Z`. -/
def goodLetters (l : List Char) : Bool := !l.isEmpty && l.all isUp

/-- The grammar `<letters><digits>(:<letters><digits>)?` of cell-range
strings: a non-empty run of `0`-`9`. -/
def goodDigits (l : List Char) : Bool := !l.isEmpty && l.all isDig

/-- The rectangle coordinates of `r` round-trip: converting `r`, rendering
the grid range back to A1 against sheet name `Sheet1`, stripping the
sheet prefix and converting again reproduces all four indices. -/
def roundtripCoords (r : String) (sheet_id : Int) : Prop :=
  let gr := _convert_a1_to_grid_range r sheet_id
  let gr2 := _convert_a1_to_grid_range (stripSheet (_grid_range_to_a1 gr "Sheet1")) sheet_id
  gr2.startRowIndex = gr.startRowIndex ∧ gr2.endRowIndex = gr.endRowIndex ∧
    gr2.startColumnIndex = gr.startColumnIndex ∧ gr2.endColumnIndex = gr.endColumnIndex

/-- The four boolean attributes of the `textFormat` dict that
`format_cells` builds; `Option.none` models an absent key. -/
structure TextFormat where
  bold : Option Bool
  italic : Option Bool
  underline : Option Bool
  strikethrough : Option Bool
deriving DecidableEq, Repr

/-- Embedding of the `text_format` construction inside `format_cells`
(sheets_tools.py lines 945-963): each attribute is set to the parsed
boolean exactly when `_parse_boolean` returns a non-`None` value. -/
def format_cells_text_format (bold italic underline strikethrough : PyVal) : TextFormat :=
  { bold := _parse_boolean bold
    italic := _parse_boolean italic
    underline := _parse_boolean underline
    strikethrough := _parse_boolean strikethrough }

/-- Properties of one sheet in the spreadsheet metadata returned by
`spreadsheets().get`. -/
structure SheetProps where
  title : String
  sheetIdent : Int
deriving DecidableEq, Repr

/-- Spreadsheet metadata: the list of sheets. -/
structure Spreadsheet where
  sheets : List SheetProps
deriving DecidableEq, Repr

/-- Embedding of `_get_sheet_id_by_name` (sheets_tools.py lines
2606-2612): the first sheet whose title equals the requested name yields
its id; otherwise a `ValueError` is raised. -/
def _get_sheet_id_by_name (spreadsheet : Spreadsheet) (sheet_name : String) : Except String Int :=
  match spreadsheet.sheets.find? (fun s => s.title = sheet_name) with
  | some s => .ok s.sheetIdent
  | Option.none => .error ("Sheet '" ++ sheet_name ++ "' not found")

/-- Embedding of `_parse_range` (sheets_tools.py lines 2595-2602): split
at the first `!` into sheet name and cell range; with no `!` the sheet
name defaults to `Sheet1`. -/
def _parse_range (range_str : String) : String × String :=
  if range_str.toList.contains '!' then
    (String.mk (range_str.toList.takeWhile (fun c => c != '!')),
     String.mk ((range_str.toList.dropWhile (fun c => c != '!')).drop 1))
  else ("Sheet1", range_str)

/-- The one mutating request `format_cells` issues on success: a
`repeatCell` over the resolved grid range (we carry the text-format part
of the cell format, which the claims inspect). -/
structure RepeatCellRequest where
  range : GridRange
  textFormat : TextFormat
deriving DecidableEq, Repr

/-- Embedding of the remote-interaction skeleton of `format_cells`
(sheets_tools.py lines 919-1019) for the text-format arguments: the
range is parsed, the metadata (passed in as data) is consulted to
resolve the sheet id — a failure there propagates as the raised
`ValueError` and nothing further runs — and otherwise exactly one
`batchUpdate` with one `repeatCell` request is issued.  The second
component lists the mutating requests issued. -/
def format_cells_run (spreadsheet : Spreadsheet) (user_google_email : String)
    (range_str : String) (bold italic underline strikethrough : PyVal) :
    Except String String × List RepeatCellRequest :=
  let parsed := _parse_range range_str
  match _get_sheet_id_by_name spreadsheet parsed.1 with
  | .error e => (.error e, [])
  | .ok sheet_id =>
    let grid_range := _convert_a1_to_grid_range parsed.2 sheet_id
    let tf := format_cells_text_format bold italic underline strikethrough
    (.ok ("Successfully formatted cells in range '" ++ range_str
        ++ "' with specified styling for " ++ user_google_email ++ "."),
     [{ range := grid_range, textFormat := tf }])

/-- One step of the inner loop of `get_data_boundaries` over the cells of
a row (include_empty_cells=False branch): a truthy (non-empty) cell at
column `colIdx` updates `min_col`, `max_col` and the cell count. -/
def scanCell (colIdx : Nat) (st : Option Nat × Nat × Nat) (cell : String) :
    Option Nat × Nat × Nat :=
  if cell ≠ "" then
    (some ((st.1.getD colIdx).min colIdx), st.2.1.max colIdx, st.2.2 + 1)
  else st

/-- The loop of `get_data_boundaries` over one row, tracking the column
index (`min_col` starts as infinity, modelled by `Option.none`). -/
def scanRow (colIdx : Nat) (row : List String) (st : Option Nat × Nat × Nat) :
    Option Nat × Nat × Nat :=
  match row with
  | [] => st
  | cell :: rest => scanRow (colIdx + 1) rest (scanCell colIdx st cell)

/-- The no-data message of `get_data_boundaries`. -/
def noDataMsg (sheet_title : String) : String :=
  "No data found in sheet '" ++ sheet_title ++ "'."

/-- Embedding of the `include_empty_cells=False` branch of
`get_data_boundaries` (sheets_tools.py lines 2098-2162), taking the
`values` portion of the remote `values().get` response as data: an empty
response returns the no-data message; otherwise `max_row` is the last
response row index and `min_row` is hard-coded 0, the column loop scans
every cell, `min_col` falls back to 0 when no cell was truthy, a zero
cell count returns the no-data message, and the boundaries are rendered
into the report string. -/
def get_data_boundaries_values (sheet_title : String) (values : List (List String)) : String :=
  if values.isEmpty then noDataMsg sheet_title
  else
    let max_row := values.length - 1
    let min_row := 0
    let scanned := values.foldl (fun st row => scanRow 0 row st) (Option.none, 0, 0)
    let min_col := scanned.1.getD 0
    let max_col := scanned.2.1
    let cell_count := scanned.2.2
    if cell_count = 0 then noDataMsg sheet_title
    else
      let start_col_letter := String.mk (colIndexToLetterL (min_col : Int))
      let end_col_letter := String.mk (colIndexToLetterL (max_col : Int))
      let start_row_num := min_row + 1
      let end_row_num := max_row + 1
      let data_range := start_col_letter ++ String.mk (natDigits start_row_num)
        ++ ":" ++ end_col_letter ++ String.mk (natDigits end_row_num)
      let full_range := sheet_title ++ "!" ++ data_range
      let rows_with_data := end_row_num - start_row_num + 1
      let cols_with_data := max_col - min_col + 1
      "Data boundaries for sheet '" ++ sheet_title ++ "':\n"
        ++ "- Data Range: " ++ data_range ++ "\n"
        ++ "- Full Range: " ++ full_range ++ "\n"
        ++ "- Rows with data: " ++ String.mk (natDigits rows_with_data) ++ "\n"
        ++ "- Columns with data: " ++ String.mk (natDigits cols_with_data)
        ++ " (" ++ start_col_letter ++ " to " ++ end_col_letter ++ ")\n"
        ++ "- Total cells with values: " ++ String.mk (natDigits cell_count) ++ "\n"
        ++ "- First data cell: " ++ start_col_letter ++ String.mk (natDigits start_row_num) ++ "\n"
        ++ "- Last data cell: " ++ end_col_letter ++ String.mk (natDigits end_row_num)

/-- Bijective base-26 value of a letter list over digits `A`=1..`Z`=26
(the natural-number counterpart of the fold in `_column_letter_to_index`,
before the final minus one). -/
def valU (l : List Char) : Nat :=
  l.foldl (fun a c => a * 26 + (c.toNat - 64)) 0

theorem toList_mk (l : List Char) : (String.mk l).toList = l := rfl

theorem toList_append (a b : String) : (a ++ b).toList = a.toList ++ b.toList := rfl

theorem takeWhile_app_of_all (p : Char → Bool) (xs ys : List Char)
    (h1 : ∀ c ∈ xs, p c = true) (h2 : ∀ c, ys.head? = some c → p c = false) :
    (xs ++ ys).takeWhile p = xs := by
  induction xs with
  | nil =>
    simp only [List.nil_append]
    cases ys with
    | nil => rfl
    | cons c cs => simp [List.takeWhile_cons, h2 c rfl]
  | cons x xs ih =>
    simp only [List.cons_append, List.takeWhile_cons, h1 x (List.mem_cons_self x xs),
      if_pos trivial, ih (fun c hc => h1 c (List.mem_cons_of_mem x hc))]

theorem dropWhile_app_of_all (p : Char → Bool) (xs ys : List Char)
    (h1 : ∀ c ∈ xs, p c = true) (h2 : ∀ c, ys.head? = some c → p c = false) :
    (xs ++ ys).dropWhile p = ys := by
  induction xs with
  | nil =>
    simp only [List.nil_append]
    cases ys with
    | nil => rfl
    | cons c cs => simp [List.dropWhile_cons, h2 c rfl]
  | cons x xs ih =>
    simp only [List.cons_append, List.dropWhile_cons, h1 x (List.mem_cons_self x xs),
      if_pos trivial, ih (fun c hc => h1 c (List.mem_cons_of_mem x hc))]

theorem isUp_ofNat : ∀ m < 26, isUp (Char.ofNat (m + 65)) = true := by decide

theorem toNat_ofNat_upper : ∀ m < 26, (Char.ofNat (m + 65)).toNat = m + 65 := by decide

theorem isDig_ofNat : ∀ m < 10, isDig (Char.ofNat (m + 48)) = true := by decide

theorem toNat_ofNat_digit : ∀ m < 10, (Char.ofNat (m + 48)).toNat = m + 48 := by decide

theorem isDig_not_isUp {c : Char} (h : isDig c = true) : isUp c = false := by
  simp only [isDig, Bool.and_eq_true, decide_eq_true_eq] at h
  simp only [isUp, Bool.and_eq_false_iff, decide_eq_false_iff_not]
  left; omega

theorem colLetterLoop_fuel : ∀ n fuel1 fuel2, n ≤ fuel1 → n ≤ fuel2 →
    colLetterLoop fuel1 n = colLetterLoop fuel2 n := by
  intro n
  induction n using Nat.strong_induction_on with
  | _ n ih =>
    intro fuel1 fuel2 hf1 hf2
    match n, fuel1, fuel2, hf1, hf2 with
    | 0, f1, f2, _, _ => cases f1 <;> cases f2 <;> rfl
    | k + 1, f1 + 1, f2 + 1, hf1, hf2 =>
      show colLetterLoop f1 (k / 26) ++ _ = colLetterLoop f2 (k / 26) ++ _
      rw [ih (k / 26) (Nat.lt_succ_of_le (Nat.div_le_self k 26)) f1 f2
        (le_trans (Nat.div_le_self k 26) (Nat.le_of_succ_le_succ hf1))
        (le_trans (Nat.div_le_self k 26) (Nat.le_of_succ_le_succ hf2))]

theorem colLetterAux_zero : colLetterAux 0 = [] := rfl

theorem colLetterAux_succ (k : Nat) :
    colLetterAux (k + 1) = colLetterAux (k / 26) ++ [Char.ofNat (k % 26 + 65)] := by
  show colLetterLoop (k + 1) (k + 1) = colLetterLoop (k / 26) (k / 26) ++ _
  show colLetterLoop k (k / 26) ++ _ = _
  rw [colLetterLoop_fuel (k / 26) k (k / 26) (Nat.div_le_self k 26) (le_refl _)]

theorem colLetterAux_all_isUp : ∀ n, (colLetterAux n).all isUp = true := by
  intro n
  induction n using Nat.strong_induction_on with
  | _ n ih =>
    match n with
    | 0 => rw [colLetterAux_zero]; rfl
    | k + 1 =>
      rw [colLetterAux_succ, List.all_append]
      have h1 := ih (k / 26) (Nat.lt_succ_of_le (Nat.div_le_self k 26))
      have h2 := isUp_ofNat (k % 26) (Nat.mod_lt k (by omega))
      simp [h1, h2]

theorem colLetterAux_ne_nil (n : Nat) (h : 0 < n) : colLetterAux n ≠ [] := by
  match n, h with
  | k + 1, _ => rw [colLetterAux_succ]; simp

theorem valU_append (xs : List Char) (c : Char) :
    valU (xs ++ [c]) = valU xs * 26 + (c.toNat - 64) := by
  simp [valU, List.foldl_append]

theorem valU_colLetterAux : ∀ n, valU (colLetterAux n) = n := by
  intro n
  induction n using Nat.strong_induction_on with
  | _ n ih =>
    match n with
    | 0 => rw [colLetterAux_zero]; rfl
    | k + 1 =>
      rw [colLetterAux_succ, valU_append,
        ih (k / 26) (Nat.lt_succ_of_le (Nat.div_le_self k 26)),
        toNat_ofNat_upper (k % 26) (Nat.mod_lt k (by omega))]
      have := Nat.div_add_mod k 26
      omega

theorem foldInt_eq_foldNat (l : List Char) (h : ∀ c ∈ l, isUp c = true) :
    ∀ a : Nat,
      List.foldl (fun index c => index * 26 + ((c.toNat : Int) - 65 + 1)) (a : Int) l
        = ((List.foldl (fun a c => a * 26 + (c.toNat - 64)) a l : Nat) : Int) := by
  induction l with
  | nil => intro a; rfl
  | cons c cs ih =>
    intro a
    have hc := h c (List.mem_cons_self c cs)
    simp only [isUp, Bool.and_eq_true, decide_eq_true_eq] at hc
    have : (a : Int) * 26 + ((c.toNat : Int) - 65 + 1) = ((a * 26 + (c.toNat - 64) : Nat) : Int) := by
      push_cast; omega
    simp only [List.foldl_cons, this]
    exact ih (fun x hx => h x (List.mem_cons_of_mem c hx)) (a * 26 + (c.toNat - 64))

theorem foldInt_eq_foldNat0 (l : List Char) (h : ∀ c ∈ l, isUp c = true) :
    List.foldl (fun index c => index * 26 + ((c.toNat : Int) - 65 + 1)) 0 l
      = ((List.foldl (fun a c => a * 26 + (c.toNat - 64)) 0 l : Nat) : Int) := by
  simpa using foldInt_eq_foldNat l h 0

theorem colLetterToIndexL_eq_valU (l : List Char) (h : l.all isUp = true) :
    colLetterToIndexL l = (valU l : Int) - 1 := by
  rw [List.all_eq_true] at h
  simp only [colLetterToIndexL, valU, foldInt_eq_foldNat0 l h]

theorem colIndexToLetterL_natCast (n : Nat) : colIndexToLetterL (n : Int) = colLetterAux (n + 1) := by
  have : ((n : Int) + 1).toNat = n + 1 := by omega
  rw [colIndexToLetterL, this]

theorem colLetterAux_valU (l : List Char) (h : l.all isUp = true) :
    colLetterAux (valU l) = l := by
  induction l using List.reverseRecOn with
  | nil => exact colLetterAux_zero
  | append_singleton t c ih =>
    rw [List.all_append] at h
    have ht : t.all isUp = true := by
      rcases Bool.and_eq_true_iff.mp h with ⟨ht, _⟩; exact ht
    have hc : isUp c = true := by
      rcases Bool.and_eq_true_iff.mp h with ⟨_, hc⟩; simpa using hc
    simp only [isUp, Bool.and_eq_true, decide_eq_true_eq] at hc
    rw [valU_append]
    have hd1 : 1 ≤ c.toNat - 64 := by omega
    have hsucc : valU t * 26 + (c.toNat - 64) = (valU t * 26 + (c.toNat - 64 - 1)) + 1 := by
      omega
    rw [hsucc, colLetterAux_succ]
    have hmod : (valU t * 26 + (c.toNat - 64 - 1)) % 26 = c.toNat - 64 - 1 := by
      rw [Nat.add_comm, Nat.add_mul_mod_self_right]
      exact Nat.mod_eq_of_lt (by omega)
    have hdiv : (valU t * 26 + (c.toNat - 64 - 1)) / 26 = valU t := by
      rw [Nat.add_comm, Nat.add_mul_div_right _ _ (by omega : (0:Nat) < 26)]
      rw [Nat.div_eq_of_lt (by omega)]
      omega
    rw [hmod, hdiv, ih ht]
    have harg : c.toNat - 64 - 1 + 65 = c.toNat := by omega
    rw [harg, Char.ofNat_toNat]

theorem natDigitsLoop_fuel : ∀ n fuel1 fuel2, n ≤ fuel1 → n ≤ fuel2 →
    natDigitsLoop fuel1 n = natDigitsLoop fuel2 n := by
  intro n
  induction n using Nat.strong_induction_on with
  | _ n ih =>
    intro fuel1 fuel2 hf1 hf2
    match n, fuel1, fuel2, hf1, hf2 with
    | 0, f1, f2, _, _ => cases f1 <;> cases f2 <;> rfl
    | k + 1, f1 + 1, f2 + 1, hf1, hf2 =>
      show natDigitsLoop f1 ((k + 1) / 10) ++ _ = natDigitsLoop f2 ((k + 1) / 10) ++ _
      have hlt : (k + 1) / 10 < k + 1 := Nat.div_lt_self (Nat.succ_pos k) (by omega)
      rw [ih ((k + 1) / 10) hlt f1 f2
        (le_trans (Nat.le_of_lt_succ hlt) (Nat.le_of_succ_le_succ hf1))
        (le_trans (Nat.le_of_lt_succ hlt) (Nat.le_of_succ_le_succ hf2))]

theorem natDigitsAux_zero : natDigitsAux 0 = [] := rfl

theorem natDigitsAux_succ (k : Nat) :
    natDigitsAux (k + 1) = natDigitsAux ((k + 1) / 10) ++ [Char.ofNat ((k + 1) % 10 + 48)] := by
  show natDigitsLoop (k + 1) (k + 1) = natDigitsLoop ((k + 1) / 10) ((k + 1) / 10) ++ _
  show natDigitsLoop k ((k + 1) / 10) ++ _ = _
  have hle : (k + 1) / 10 ≤ k := Nat.le_of_lt_succ (Nat.div_lt_self (Nat.succ_pos k) (by omega))
  rw [natDigitsLoop_fuel ((k + 1) / 10) k ((k + 1) / 10) hle (le_refl _)]

theorem natDigitsAux_all_isDig : ∀ n, (natDigitsAux n).all isDig = true := by
  intro n
  induction n using Nat.strong_induction_on with
  | _ n ih =>
    match n with
    | 0 => rw [natDigitsAux_zero]; rfl
    | k + 1 =>
      rw [natDigitsAux_succ, List.all_append]
      have h1 := ih ((k + 1) / 10) (Nat.div_lt_self (Nat.succ_pos k) (by omega))
      have h2 := isDig_ofNat ((k + 1) % 10) (Nat.mod_lt (k + 1) (by omega))
      simp [h1, h2]

theorem natDigits_all_isDig (n : Nat) : (natDigits n).all isDig = true := by
  unfold natDigits
  split
  · rfl
  · exact natDigitsAux_all_isDig n

theorem natDigitsAux_ne_nil (n : Nat) (h : 0 < n) : natDigitsAux n ≠ [] := by
  match n, h with
  | k + 1, _ => rw [natDigitsAux_succ]; simp

theorem natDigits_ne_nil (n : Nat) : natDigits n ≠ [] := by
  unfold natDigits
  split
  · simp
  · exact natDigitsAux_ne_nil n (by omega)

theorem digitsVal_append (xs : List Char) (c : Char) :
    digitsVal (xs ++ [c]) = digitsVal xs * 10 + (c.toNat - 48) := by
  simp [digitsVal, List.foldl_append]

theorem digitsVal_natDigitsAux : ∀ n, digitsVal (natDigitsAux n) = n := by
  intro n
  induction n using Nat.strong_induction_on with
  | _ n ih =>
    match n with
    | 0 => rw [natDigitsAux_zero]; rfl
    | k + 1 =>
      rw [natDigitsAux_succ, digitsVal_append,
        ih ((k + 1) / 10) (Nat.div_lt_self (Nat.succ_pos k) (by omega)),
        toNat_ofNat_digit ((k + 1) % 10) (Nat.mod_lt (k + 1) (by omega))]
      have := Nat.div_add_mod (k + 1) 10
      omega

theorem digitsVal_natDigits (n : Nat) : digitsVal (natDigits n) = n := by
  unfold natDigits
  split
  · simp_all [digitsVal]
  · exact digitsVal_natDigitsAux n

theorem intDigits_natCast (n : Nat) : intDigits (n : Int) = natDigits n := by
  unfold intDigits
  rw [if_neg (by omega)]
  congr 1

theorem takeWhile_all_of (p : Char → Bool) (l : List Char) (h : ∀ c ∈ l, p c = true) :
    l.takeWhile p = l := by
  have := takeWhile_app_of_all p l [] h (by intro c hc; simp at hc)
  simpa using this

theorem dropWhile_all_of (p : Char → Bool) (l : List Char) (h : ∀ c ∈ l, p c = true) :
    l.dropWhile p = [] := by
  have := dropWhile_app_of_all p l [] h (by intro c hc; simp at hc)
  simpa using this

theorem goodLetters_spec (l : List Char) (h : goodLetters l = true) :
    l ≠ [] ∧ ∀ c ∈ l, isUp c = true := by
  rcases Bool.and_eq_true_iff.mp h with ⟨h1, h2⟩
  exact ⟨by simpa using h1, List.all_eq_true.mp h2⟩

theorem goodDigits_spec (l : List Char) (h : goodDigits l = true) :
    l ≠ [] ∧ ∀ c ∈ l, isDig c = true := by
  rcases Bool.and_eq_true_iff.mp h with ⟨h1, h2⟩
  exact ⟨by simpa using h1, List.all_eq_true.mp h2⟩

theorem parseA1Tail_decomp (g3 g4 : List Char)
    (h3 : goodLetters g3 = true) (h4 : goodDigits g4 = true) :
    parseA1Tail (':' :: (g3 ++ g4)) = some (g3, g4) := by
  obtain ⟨h3ne, h3up⟩ := goodLetters_spec g3 h3
  obtain ⟨h4ne, h4dig⟩ := goodDigits_spec g4 h4
  have hhead : ∀ c, g4.head? = some c → isUp c = false := by
    intro c hc
    cases g4 with
    | nil => simp at hc
    | cons d t =>
      simp only [List.head?_cons, Option.some_inj] at hc
      rw [← hc]
      exact isDig_not_isUp (h4dig d (List.mem_cons_self d t))
  have htake : (g3 ++ g4).takeWhile isUp = g3 := takeWhile_app_of_all isUp g3 g4 h3up hhead
  have hdrop : (g3 ++ g4).dropWhile isUp = g4 := dropWhile_app_of_all isUp g3 g4 h3up hhead
  have htake4 : g4.takeWhile isDig = g4 := takeWhile_all_of isDig g4 h4dig
  have h3e : g3.isEmpty = false := by cases g3 with
    | nil => exact absurd rfl h3ne
    | cons _ _ => rfl
  have h4e : g4.isEmpty = false := by cases g4 with
    | nil => exact absurd rfl h4ne
    | cons _ _ => rfl
  simp only [parseA1Tail, htake, hdrop, htake4, h3e, h4e, Bool.false_eq_true,
    if_false]

theorem parseA1Groups_decomp (g1 g2 rest : List Char)
    (h1 : goodLetters g1 = true) (h2 : goodDigits g2 = true)
    (hr : ∀ c, rest.head? = some c → isDig c = false) :
    parseA1Groups (g1 ++ g2 ++ rest) = some ((g1, g2), parseA1Tail rest) := by
  obtain ⟨h1ne, h1up⟩ := goodLetters_spec g1 h1
  obtain ⟨h2ne, h2dig⟩ := goodDigits_spec g2 h2
  have hhead : ∀ c, (g2 ++ rest).head? = some c → isUp c = false := by
    intro c hc
    cases g2 with
    | nil => exact absurd rfl h2ne
    | cons d t =>
      simp only [List.cons_append, List.head?_cons, Option.some_inj] at hc
      rw [← hc]
      exact isDig_not_isUp (h2dig d (List.mem_cons_self d t))
  have hassoc : g1 ++ g2 ++ rest = g1 ++ (g2 ++ rest) := List.append_assoc g1 g2 rest
  have htake1 : (g1 ++ (g2 ++ rest)).takeWhile isUp = g1 :=
    takeWhile_app_of_all isUp g1 (g2 ++ rest) h1up hhead
  have hdrop1 : (g1 ++ (g2 ++ rest)).dropWhile isUp = g2 ++ rest :=
    dropWhile_app_of_all isUp g1 (g2 ++ rest) h1up hhead
  have htake2 : (g2 ++ rest).takeWhile isDig = g2 :=
    takeWhile_app_of_all isDig g2 rest h2dig hr
  have hdrop2 : (g2 ++ rest).dropWhile isDig = rest :=
    dropWhile_app_of_all isDig g2 rest h2dig hr
  have h1e : g1.isEmpty = false := by cases g1 with
    | nil => exact absurd rfl h1ne
    | cons _ _ => rfl
  have h2e : g2.isEmpty = false := by cases g2 with
    | nil => exact absurd rfl h2ne
    | cons _ _ => rfl
  rw [hassoc]
  simp only [parseA1Groups, htake1, hdrop1, htake2, hdrop2, h1e, h2e,
    Bool.false_eq_true, if_false]

set_option maxRecDepth 4096

/-- C3: `_validate_2d_array` normalizes a non-list scalar to `[[x]]`, a
flat list (first element not a list) to the single-row matrix `[input]`,
returns an all-lists 2D array unchanged, and raises on `None`, on the
empty list, and on a list whose first element is a list while another
element is not. -/
theorem claim_C3_validate_2d_array_cases :
    (∀ v : PyVal, v ≠ .none → v.isPyList = false →
      _validate_2d_array v = .ok (.list [.list [v]])) ∧
    (∀ (x0 : PyVal) (tl : List PyVal), x0.isPyList = false →
      _validate_2d_array (.list (x0 :: tl)) = .ok (.list [.list (x0 :: tl)])) ∧
    (∀ (x0 : PyVal) (tl : List PyVal), x0.isPyList = true →
      (x0 :: tl).all PyVal.isPyList = true →
      _validate_2d_array (.list (x0 :: tl)) = .ok (.list (x0 :: tl))) ∧
    _validate_2d_array .none = .error "Values cannot be None" ∧
    _validate_2d_array (.list []) = .error "Values cannot be an empty list" ∧
    (∃ e, _validate_2d_array (.list [.list [.str "a"], .str "b"]) = .error e) := by
  refine ⟨?_, ?_, ?_, rfl, rfl, ⟨"Row is not a list", rfl⟩⟩
  · intro v hnone hlist
    match v with
    | .none => exact absurd rfl hnone
    | .bool b => rfl
    | .int n => rfl
    | .str s => rfl
    | .list xs => simp [PyVal.isPyList] at hlist
  · intro x0 tl h
    simp [_validate_2d_array, h]
  · intro x0 tl h1 h2
    simp [_validate_2d_array, h1, h2]

/-- C3 witness: the three hypothetical cases instantiated at concrete
inputs via the theorem. -/
theorem claim_C3_validate_2d_array_cases_witness :
    _validate_2d_array (.str "x") = .ok (.list [.list [.str "x"]]) ∧
    _validate_2d_array (.list [.str "a", .str "b"]) = .ok (.list [.list [.str "a", .str "b"]]) ∧
    _validate_2d_array (.list [.list [.str "a"], .list [.str "b"]])
      = .ok (.list [.list [.str "a"], .list [.str "b"]]) :=
  ⟨claim_C3_validate_2d_array_cases.1 (.str "x") (fun h => PyVal.noConfusion h) rfl,
   claim_C3_validate_2d_array_cases.2.1 (.str "a") [.str "b"] rfl,
   claim_C3_validate_2d_array_cases.2.2.1 (.list [.str "a"]) [.list [.str "b"]] rfl rfl⟩

/-- C9: `_validate_2d_array` raises exactly on `None`, on `[]`, and on a
list whose first element is a list while some element is not a list; in
particular a list headed by a non-list is wrapped whole as one row even
when a later element is a list. -/
theorem claim_C9_validate_raises_iff :
    (∀ v : PyVal, (∃ e, _validate_2d_array v = .error e) ↔
      (v = .none ∨ v = .list [] ∨
        ∃ x0 tl, v = .list (x0 :: tl) ∧ x0.isPyList = true ∧
          (x0 :: tl).all PyVal.isPyList = false)) ∧
    _validate_2d_array (.list [.str "b", .list [.str "a"]])
      = .ok (.list [.list [.str "b", .list [.str "a"]]]) := by
  constructor
  · intro v
    constructor
    · rintro ⟨e, he⟩
      match v with
      | .none => exact Or.inl rfl
      | .bool b => simp [_validate_2d_array] at he
      | .int n => simp [_validate_2d_array] at he
      | .str s => simp [_validate_2d_array] at he
      | .list [] => exact Or.inr (Or.inl rfl)
      | .list (x0 :: tl) =>
        refine Or.inr (Or.inr ⟨x0, tl, rfl, ?_, ?_⟩)
        · by_contra hl
          rw [Bool.not_eq_true] at hl
          simp [_validate_2d_array, hl] at he
        · by_contra hall
          rw [Bool.not_eq_false] at hall
          have hl : x0.isPyList = true := by
            have := (List.all_eq_true.mp hall) x0 (List.mem_cons_self x0 tl)
            exact this
          simp [_validate_2d_array, hl, hall] at he
    · intro h
      rcases h with rfl | rfl | ⟨x0, tl, rfl, hl, hall⟩
      · exact ⟨"Values cannot be None", rfl⟩
      · exact ⟨"Values cannot be an empty list", rfl⟩
      · refine ⟨"Row is not a list", ?_⟩
        simp [_validate_2d_array, hl, hall]
  · rfl

/-- C5: `_convert_a1_to_grid_range` builds half-open rectangles: a single
cell `A1` is a 1×1 rectangle and `A1:C3` the 3×3 rectangle with exclusive
end indices 3. -/
theorem claim_C5_convert_a1_rectangles :
    _convert_a1_to_grid_range "A1" 7 =
      { sheetId := 7, startRowIndex := some 0, endRowIndex := some 1,
        startColumnIndex := some 0, endColumnIndex := some 1 } ∧
    _convert_a1_to_grid_range "A1:C3" 7 =
      { sheetId := 7, startRowIndex := some 0, endRowIndex := some 3,
        startColumnIndex := some 0, endColumnIndex := some 3 } := by
  exact ⟨by decide, by decide⟩

/-- C6: `_grid_range_to_a1` with both end indices present renders
`<sheet>!<startCol><startRow+1>:<endCol-1 as letter><endRow>`, the end
column letter computed after subtracting one from the exclusive bound;
concretely the 3×3 rectangle at sheet `Sheet1` renders as
`Sheet1!A1:C3`. -/
theorem claim_C6_grid_range_to_a1 :
    (∀ (sid sr er sc ec : Int) (name : String),
      _grid_range_to_a1
        { sheetId := sid, startRowIndex := some sr, endRowIndex := some er,
          startColumnIndex := some sc, endColumnIndex := some ec } name
        = name ++ "!" ++ _column_index_to_letter sc ++ String.mk (intDigits (sr + 1))
          ++ ":" ++ _column_index_to_letter (ec - 1) ++ String.mk (intDigits er)) ∧
    _grid_range_to_a1
      { sheetId := 7, startRowIndex := some 0, endRowIndex := some 3,
        startColumnIndex := some 0, endColumnIndex := some 3 } "Sheet1" = "Sheet1!A1:C3" := by
  exact ⟨fun sid sr er sc ec name => rfl, by decide⟩

/-- C7: `_parse_boolean` maps each of `True, 1, "true", "1", "yes", "on"`
to `true` and each of `False, 0, "false", "0", "no", "off"` to `false`,
maps `None` to `None`, and the `textFormat` attributes built by
`format_cells` equal the parsed values, an attribute being absent exactly
when the parse returned `None`. -/
theorem claim_C7_parse_boolean_flexible :
    (_parse_boolean (.bool true) = some true ∧ _parse_boolean (.int 1) = some true ∧
     _parse_boolean (.str "true") = some true ∧ _parse_boolean (.str "1") = some true ∧
     _parse_boolean (.str "yes") = some true ∧ _parse_boolean (.str "on") = some true) ∧
    (_parse_boolean (.bool false) = some false ∧ _parse_boolean (.int 0) = some false ∧
     _parse_boolean (.str "false") = some false ∧ _parse_boolean (.str "0") = some false ∧
     _parse_boolean (.str "no") = some false ∧ _parse_boolean (.str "off") = some false) ∧
    _parse_boolean .none = Option.none ∧
    (∀ b i u s : PyVal,
      (format_cells_text_format b i u s).bold = _parse_boolean b ∧
      (format_cells_text_format b i u s).italic = _parse_boolean i ∧
      (format_cells_text_format b i u s).underline = _parse_boolean u ∧
      (format_cells_text_format b i u s).strikethrough = _parse_boolean s) ∧
    format_cells_text_format (.str "true") (.int 1) (.bool false) .none
      = { bold := some true, italic := some true, underline := some false,
          strikethrough := Option.none } := by
  refine ⟨⟨rfl, rfl, by decide, by decide, by decide, by decide⟩,
    ⟨rfl, rfl, by decide, by decide, by decide, by decide⟩,
    rfl, fun b i u s => ⟨rfl, rfl, rfl, rfl⟩, by decide⟩

/-- C1 (evaluation of the code at the claim's scenario): with an empty
values response the no-data message is returned, as the claim says; but
for the response of a sheet whose only non-empty cell is B3 (two leading
empty rows, then `["", "X"]` — trailing empty rows and columns are
omitted by the API), the `include_empty_cells=False` branch reports the
data range `B1:B3` with first data cell `B1`, because `min_row` is
hard-coded to 0 and `max_row` to the last response row, not `B3:B3` as
the claim states. -/
theorem claim_C1_data_boundaries_eval :
    get_data_boundaries_values "Sheet1" [] = "No data found in sheet 'Sheet1'." ∧
    get_data_boundaries_values "Sheet1" [[], [], ["", "X"]]
      = "Data boundaries for sheet 'Sheet1':\n- Data Range: B1:B3\n- Full Range: Sheet1!B1:B3\n- Rows with data: 3\n- Columns with data: 1 (B to B)\n- Total cells with values: 1\n- First data cell: B1\n- Last data cell: B3" := by
  exact ⟨by decide, by decide⟩

/-- C8: when the fetched metadata holds no sheet titled as the range's
sheet name, `_get_sheet_id_by_name` raises and `format_cells` issues no
mutating request: the run result is the raised error and the list of
issued `batchUpdate` requests is empty. -/
theorem claim_C8_resolve_fail_no_mutation :
    ∀ (sp : Spreadsheet) (email range_str : String) (b i u st : PyVal),
      (∀ s ∈ sp.sheets, s.title ≠ (_parse_range range_str).1) →
      (∃ e, _get_sheet_id_by_name sp (_parse_range range_str).1 = .error e) ∧
      (format_cells_run sp email range_str b i u st).2 = [] ∧
      (∃ e, (format_cells_run sp email range_str b i u st).1 = .error e) := by
  intro sp email range_str b i u st h
  have hfind : sp.sheets.find? (fun s => s.title = (_parse_range range_str).1) = Option.none := by
    rw [List.find?_eq_none]
    intro x hx
    simp only [decide_eq_true_eq]
    exact h x hx
  have herr : _get_sheet_id_by_name sp (_parse_range range_str).1
      = .error ("Sheet '" ++ (_parse_range range_str).1 ++ "' not found") := by
    unfold _get_sheet_id_by_name
    rw [hfind]
  refine ⟨⟨_, herr⟩, ?_, ?_⟩
  · simp only [format_cells_run, herr]
  · exact ⟨"Sheet '" ++ (_parse_range range_str).1 ++ "' not found",
      by simp only [format_cells_run, herr]⟩

/-- C8 witness: a spreadsheet holding only a sheet titled `Other` and the
range `Sheet1!A1`. -/
theorem claim_C8_resolve_fail_no_mutation_witness :
    (format_cells_run ⟨[⟨"Other", 1⟩]⟩ "a@b.c" "Sheet1!A1" .none .none .none .none).2 = [] ∧
    (∃ e, (format_cells_run ⟨[⟨"Other", 1⟩]⟩ "a@b.c" "Sheet1!A1" .none .none .none .none).1
      = .error e) :=
  (claim_C8_resolve_fail_no_mutation ⟨[⟨"Other", 1⟩]⟩ "a@b.c" "Sheet1!A1" .none .none .none .none
    (by intro s hs; rcases List.mem_singleton.mp hs with rfl; decide)).2

/-- C10: the A1 regex is anchored at the start only, so an input that
begins with a valid cell reference followed by characters that do not
complete the `:<letters><digits>` tail converts exactly as the matched
prefix does — `A1:B` gives the 1×1 rectangle of `A1` — while a fully
unparsable input yields the sheetId-only dictionary. -/
theorem claim_C10_convert_prefix_match :
    (∀ (g1 g2 rest : List Char) (sid : Int),
      goodLetters g1 = true → goodDigits g2 = true →
      (∀ c, rest.head? = some c → isDig c = false) →
      parseA1Tail rest = Option.none →
      _convert_a1_to_grid_range (String.mk (g1 ++ g2 ++ rest)) sid
        = _convert_a1_to_grid_range (String.mk (g1 ++ g2)) sid) ∧
    _convert_a1_to_grid_range "A1:B" 5 =
      { sheetId := 5, startRowIndex := some 0, endRowIndex := some 1,
        startColumnIndex := some 0, endColumnIndex := some 1 } ∧
    _convert_a1_to_grid_range "xyz" 5 =
      { sheetId := 5, startRowIndex := Option.none, endRowIndex := Option.none,
        startColumnIndex := Option.none, endColumnIndex := Option.none } := by
  refine ⟨?_, by decide, by decide⟩
  intro g1 g2 rest sid h1 h2 hr htail
  have hpair : parseA1Groups (g1 ++ g2 ++ rest) = some ((g1, g2), Option.none) := by
    rw [parseA1Groups_decomp g1 g2 rest h1 h2 hr, htail]
  have hpair2 : parseA1Groups (g1 ++ g2) = some ((g1, g2), Option.none) := by
    have := parseA1Groups_decomp g1 g2 [] h1 h2 (by intro c hc; simp at hc)
    rw [List.append_nil] at this
    rw [this]
    rfl
  unfold _convert_a1_to_grid_range
  rw [toList_mk, toList_mk, hpair, hpair2]

/-- C10 witness: the general prefix statement instantiated at `A1:B`. -/
theorem claim_C10_convert_prefix_match_witness :
    _convert_a1_to_grid_range (String.mk (['A'] ++ ['1'] ++ [':', 'B'])) 5
      = _convert_a1_to_grid_range (String.mk (['A'] ++ ['1'])) 5 :=
  claim_C10_convert_prefix_match.1 ['A'] ['1'] [':', 'B'] 5 (by decide) (by decide)
    (by intro c hc; injection hc with h; rw [← h]; decide) (by decide)

theorem mk_toList (s : String) : String.mk s.toList = s := rfl

theorem mk_append (a b : List Char) : String.mk a ++ String.mk b = String.mk (a ++ b) := rfl

theorem string_eq_of_toList {a b : String} (h : a.toList = b.toList) : a = b := by
  cases a
  cases b
  simpa [toList_mk] using congrArg String.mk h

/-- C4: for every non-empty uppercase string the column codecs round-trip
(`_column_index_to_letter (_column_letter_to_index s) = s`), and the
letter-to-index map takes `A, Z, AA, AZ` to `0, 25, 26, 51` (bijective
base 26). -/
theorem claim_C4_column_roundtrip :
    (∀ s : String, s.toList ≠ [] → s.toList.all isUp = true →
      _column_index_to_letter (_column_letter_to_index s) = s) ∧
    _column_letter_to_index "A" = 0 ∧ _column_letter_to_index "Z" = 25 ∧
    _column_letter_to_index "AA" = 26 ∧ _column_letter_to_index "AZ" = 51 := by
  refine ⟨?_, by decide, by decide, by decide, by decide⟩
  intro s hne hall
  unfold _column_index_to_letter _column_letter_to_index
  rw [colLetterToIndexL_eq_valU s.toList hall]
  unfold colIndexToLetterL
  have h1 : ((valU s.toList : Int) - 1 + 1) = (valU s.toList : Int) := by ring
  rw [h1, Int.toNat_natCast, colLetterAux_valU s.toList hall, mk_toList]

/-- C4 witness: the round-trip at the concrete column string `AB`. -/
theorem claim_C4_column_roundtrip_witness :
    ("AB".toList ≠ [] ∧ "AB".toList.all isUp = true) ∧
    _column_index_to_letter (_column_letter_to_index "AB") = "AB" :=
  ⟨⟨by decide, by decide⟩, claim_C4_column_roundtrip.1 "AB" (by decide) (by decide)⟩

theorem goodDigits_natDigits (d : Nat) : goodDigits (natDigits d) = true := by
  have h1 := natDigits_all_isDig d
  have h2 := natDigits_ne_nil d
  cases hnd : natDigits d with
  | nil => exact absurd hnd h2
  | cons a t =>
    rw [hnd] at h1
    simp [goodDigits, h1]

theorem colIndexToLetter_colLetterToIndex (l : List Char) (h : l.all isUp = true) :
    colIndexToLetterL (colLetterToIndexL l) = l := by
  rw [colLetterToIndexL_eq_valU l h]
  unfold colIndexToLetterL
  have h1 : ((valU l : Int) - 1 + 1) = (valU l : Int) := by ring
  rw [h1, Int.toNat_natCast]
  exact colLetterAux_valU l h

theorem stripSheet_bang (pre rest : List Char) (h : ∀ c ∈ pre, (c != '!') = true) :
    stripSheet (String.mk (pre ++ '!' :: rest)) = String.mk rest := by
  unfold stripSheet
  rw [toList_mk, dropWhile_app_of_all _ pre ('!' :: rest) h
    (by intro c hc; simp only [List.head?_cons, Option.some_inj] at hc; rw [← hc]; rfl)]
  rfl

theorem stripSheet_sheet1 (rest : List Char) :
    stripSheet (String.mk ("Sheet1".toList ++ '!' :: rest)) = String.mk rest :=
  stripSheet_bang "Sheet1".toList rest (by decide)

theorem convert_parse_pair (a1 : String) (sid : Int) (g1 g2 : List Char)
    (h : parseA1Groups a1.toList = some ((g1, g2), Option.none)) :
    _convert_a1_to_grid_range a1 sid =
      { sheetId := sid, startRowIndex := some ((digitsVal g2 : Int) - 1),
        endRowIndex := some ((digitsVal g2 : Int) - 1 + 1),
        startColumnIndex := some (colLetterToIndexL g1),
        endColumnIndex := some (colLetterToIndexL g1 + 1) } := by
  unfold _convert_a1_to_grid_range
  rw [h]

theorem convert_parse_quad (a1 : String) (sid : Int) (g1 g2 g3 g4 : List Char)
    (h : parseA1Groups a1.toList = some ((g1, g2), some (g3, g4))) :
    _convert_a1_to_grid_range a1 sid =
      { sheetId := sid, startRowIndex := some ((digitsVal g2 : Int) - 1),
        endRowIndex := some ((digitsVal g4 : Int)),
        startColumnIndex := some (colLetterToIndexL g1),
        endColumnIndex := some (colLetterToIndexL g3 + 1) } := by
  unfold _convert_a1_to_grid_range
  rw [h]

theorem grid_range_to_a1_some (sid sr er sc ec : Int) (name : String) :
    _grid_range_to_a1
      { sheetId := sid, startRowIndex := some sr, endRowIndex := some er,
        startColumnIndex := some sc, endColumnIndex := some ec } name
    = String.mk (name.toList ++ '!' :: (colIndexToLetterL sc ++ intDigits (sr + 1)
        ++ ':' :: (colIndexToLetterL (ec - 1) ++ intDigits er))) := by
  apply string_eq_of_toList
  show (name ++ "!" ++ String.mk (colIndexToLetterL sc) ++ String.mk (intDigits (sr + 1))
      ++ ":" ++ String.mk (colIndexToLetterL (ec - 1)) ++ String.mk (intDigits er)).toList = _
  have hbang : ("!" : String).toList = ['!'] := rfl
  have hcolon : (":" : String).toList = [':'] := rfl
  simp [toList_append, toList_mk, hbang, hcolon, List.append_assoc]

theorem roundtrip_of_shape (sid : Int) (g1 g3 : List Char) (d2 dE : Nat) (r : String)
    (h1 : goodLetters g1 = true) (h3 : goodLetters g3 = true)
    (hgr : _convert_a1_to_grid_range r sid =
      { sheetId := sid, startRowIndex := some ((d2 : Int) - 1),
        endRowIndex := some ((dE : Int)),
        startColumnIndex := some (colLetterToIndexL g1),
        endColumnIndex := some (colLetterToIndexL g3 + 1) }) :
    roundtripCoords r sid := by
  obtain ⟨h1ne, h1up⟩ := goodLetters_spec g1 h1
  obtain ⟨h3ne, h3up⟩ := goodLetters_spec g3 h3
  have h1all : g1.all isUp = true := List.all_eq_true.mpr h1up
  have h3all : g3.all isUp = true := List.all_eq_true.mpr h3up
  simp only [roundtripCoords]
  rw [hgr, grid_range_to_a1_some]
  have hsr : ((d2 : Int) - 1 + 1) = ((d2 : Int)) := by ring
  have hec : (colLetterToIndexL g3 + 1 - 1) = colLetterToIndexL g3 := by ring
  rw [hsr, hec, colIndexToLetter_colLetterToIndex g1 h1all,
    colIndexToLetter_colLetterToIndex g3 h3all, intDigits_natCast d2, intDigits_natCast dE,
    stripSheet_sheet1]
  have hquad : parseA1Groups (g1 ++ natDigits d2 ++ ':' :: (g3 ++ natDigits dE))
      = some ((g1, natDigits d2), some (g3, natDigits dE)) := by
    rw [parseA1Groups_decomp g1 (natDigits d2) (':' :: (g3 ++ natDigits dE)) h1
      (goodDigits_natDigits d2)
      (by intro c hc; simp only [List.head?_cons, Option.some_inj] at hc; rw [← hc]; rfl),
      parseA1Tail_decomp g3 (natDigits dE) h3 (goodDigits_natDigits dE)]
  rw [convert_parse_quad (String.mk (g1 ++ natDigits d2 ++ ':' :: (g3 ++ natDigits dE))) sid
    g1 (natDigits d2) g3 (natDigits dE) (by rw [toList_mk]; exact hquad)]
  refine ⟨?_, ?_, rfl, rfl⟩
  · show some ((digitsVal (natDigits d2) : Int) - 1) = some ((d2 : Int) - 1)
    rw [digitsVal_natDigits d2]
  · show some ((digitsVal (natDigits dE) : Int)) = some ((dE : Int))
    rw [digitsVal_natDigits dE]

/-- C2: for every cell-range string matching
`<letters><digits>(:<letters><digits>)?` and every sheetId, converting to
a grid range, rendering back to A1, stripping the sheet-name prefix and
converting again reproduces exactly the four rectangle coordinates. -/
theorem claim_C2_roundtrip_coords :
    ∀ (g1 g2 g3 g4 : List Char) (sid : Int),
      goodLetters g1 = true → goodDigits g2 = true →
      goodLetters g3 = true → goodDigits g4 = true →
      roundtripCoords (String.mk (g1 ++ g2)) sid ∧
      roundtripCoords (String.mk (g1 ++ g2 ++ ':' :: (g3 ++ g4))) sid := by
  intro g1 g2 g3 g4 sid h1 h2 h3 h4
  constructor
  · have hpair : parseA1Groups (String.mk (g1 ++ g2)).toList = some ((g1, g2), Option.none) := by
      rw [toList_mk]
      have hd := parseA1Groups_decomp g1 g2 [] h1 h2 (by intro c hc; simp at hc)
      rw [List.append_nil] at hd
      rw [hd]
      rfl
    have hgr := convert_parse_pair (String.mk (g1 ++ g2)) sid g1 g2 hpair
    rw [(by ring : ((digitsVal g2 : Int) - 1 + 1) = ((digitsVal g2 : Int)))] at hgr
    exact roundtrip_of_shape sid g1 g1 (digitsVal g2) (digitsVal g2) _ h1 h1 hgr
  · have hquad : parseA1Groups (String.mk (g1 ++ g2 ++ ':' :: (g3 ++ g4))).toList
        = some ((g1, g2), some (g3, g4)) := by
      rw [toList_mk, parseA1Groups_decomp g1 g2 (':' :: (g3 ++ g4)) h1 h2
        (by intro c hc; simp only [List.head?_cons, Option.some_inj] at hc; rw [← hc]; rfl),
        parseA1Tail_decomp g3 g4 h3 h4]
    have hgr := convert_parse_quad (String.mk (g1 ++ g2 ++ ':' :: (g3 ++ g4))) sid
      g1 g2 g3 g4 hquad
    exact roundtrip_of_shape sid g1 g3 (digitsVal g2) (digitsVal g4) _ h1 h3 hgr

/-- C2 witness: the round-trip at `A1` and `A1:C3` with sheetId 7. -/
theorem claim_C2_roundtrip_coords_witness :
    roundtripCoords (String.mk (['A'] ++ ['1'])) 7 ∧
    roundtripCoords (String.mk (['A'] ++ ['1'] ++ ':' :: (['C'] ++ ['3']))) 7 :=
  claim_C2_roundtrip_coords ['A'] ['1'] ['C'] ['3'] 7 (by decide) (by decide)
    (by decide) (by decide)
